import Mathlib

/-!
Verification of the hpvsim population state engine against its specification.

The development shallowly embeds the state-updating operations of
`hpvsim/people.py`, `hpvsim/parameters.py` and `hpvsim/sim.py`:
  * the partnership network update (`dissolve_partnerships`, `create_partnerships`),
  * the disease-state transitions (`check_cin1/2/3`, `check_cancer`,
    `check_clearance`, `infect`, `remove_people`),
  * the severity functional-form dispatch (`compute_severity`,
    `compute_inv_severity`, `compute_severity_integral`),
  * the seeded run loop (`Sim.initialize` / `Sim.run`).

Machine floats are embedded as rationals; a NaN-able float field is embedded
as `Option ℚ` with `none` playing the role of NaN (any comparison against
`none` is false, matching IEEE comparisons against NaN).  Agent and genotype
indices are natural numbers; vectorized boolean arrays are functions from
indices to `Bool`, and vectorized index arrays are lists (which, like numpy
index arrays, may contain duplicates).

Statistical helpers from `utils.py` / `population.py` / `base.py` (random
sampling, age-scaling of acts, the global RNG) are not part of the embedded
sources; where an operation consumes their output the embedding takes that
output as an explicit argument, and where a claim depends on their behaviour
the definition is modelled from the spec and says so in its doc string.
-/

namespace HPVSim

/-! ## Partnership network (people.py, dissolve_partnerships / create_partnerships)

A single layer of the multi-layer network.  `People.contacts[lkey]` is an
edge list with female/male endpoint indices, start/end times and act rates;
`current_partners[lno, :]` is the per-layer partner counter.  Each layer's
edge list and counter row are updated independently by the two methods, so
the embedding models one layer.
-/

/-- One partnership edge: `f`/`m` are the female and male agent indices,
`start`/`endTime` embed the `start`/`end` columns (formation and scheduled
dissolution times, in years), `acts` the per-year act rate. -/
structure Edge where
  f : Nat
  m : Nat
  start : ℚ
  endTime : ℚ
  acts : ℚ
  deriving DecidableEq, Repr

/-- State of a single network layer: the edge list (`People.contacts[lkey]`)
together with this layer's row of `current_partners`, `rship_start_dates`,
`rship_end_dates` and `n_rships`. -/
structure LayerState where
  edges : List Edge
  partners : Nat → Int
  rshipStartDates : Nat → Option ℚ
  rshipEndDates : Nat → Option ℚ
  nRships : Nat → Nat

/-- Number of edges in `es` touching agent `a` as female or male endpoint,
counted with multiplicity (an agent in k edges is counted k times). -/
def touchCount (a : Nat) (es : List Edge) : Nat :=
  (es.map (fun e => (if e.f = a then 1 else 0) + (if e.m = a then 1 else 0))).sum

/-- Number of pairs in `ps` involving agent `a`, with multiplicity. -/
def pairTouch (a : Nat) (ps : List (Nat × Nat)) : Nat :=
  (ps.map (fun p => (if p.1 = a then 1 else 0) + (if p.2 = a then 1 else 0))).sum

/-- The dissolution condition of `dissolve_partnerships` (people.py:198):
`(~alive[m]) | (~alive[f]) | (t*dt > end)`.  Note the comparison with the
end time is strict. -/
def toDissolve (alive : Nat → Bool) (curTime : ℚ) (e : Edge) : Bool :=
  (!alive e.m) || (!alive e.f) || decide (curTime > e.endTime)

/-- Embeds `People.dissolve_partnerships` (people.py:191-207) for one layer.
`curTime` is `self.t * self.pars['dt']` and `t` is the timestep `self.t`.
`layer.pop_inds(to_dissolve)` (base.py, not under src) removes the edges
meeting the mask and returns them; it is embedded as a filter.  The
decrement of `current_partners` via `hpu.unique` subtracts, for each agent,
its number of occurrences among the endpoints of the dissolved edges.
Returns the new layer state and `n_dissolved` for the layer. -/
def dissolvePships (alive : Nat → Bool) (curTime t : ℚ) (s : LayerState) :
    LayerState × Nat :=
  let dissolved := s.edges.filter (toDissolve alive curTime)
  let kept := s.edges.filter (fun e => !toDissolve alive curTime e)
  let popped := dissolved.map (·.f) ++ dissolved.map (·.m)
  ({ edges := kept
     partners := fun a => s.partners a - (popped.count a : Int)
     rshipStartDates := s.rshipStartDates
     rshipEndDates := fun a => if a ∈ popped then some t else s.rshipEndDates a
     nRships := s.nRships },
   dissolved.length)

/-- Embeds the bookkeeping part of `People.create_partnerships`
(people.py:210-308) for one layer.  The stochastic selection of the matched
female/male index arrays (`binomial_filter` / `choose_w` / mixing-matrix
sampling, in utils.py, not under src), the sampled raw acts and their age
scaling (`age_scale_acts`, population.py, not under src) and the sampled
partnership durations are taken as arguments: `fs`/`ms` are the matched
index arrays, `scaledActs` the age-scaled act counts for each matched pair,
and `durs` the durations sampled for the *kept* pairs.

Faithful to the source order: `current_partners`, `rship_start_dates` and
`n_rships` are incremented for every matched pair (lines 272-276) *before*
pairs with zero scaled acts are discarded (`keep_inds = scaled_acts > 0`,
line 290); only the kept pairs are added to the contact list. -/
def createPships (t dt : ℚ) (fs ms : List Nat) (scaledActs durs : List ℚ)
    (s : LayerState) : LayerState :=
  if fs.length = 0 then s else
  let newInds := fs ++ ms
  let matched := (fs.zip ms).zip scaledActs
  let keptM := matched.filter (fun x => decide (0 < x.2))
  let newEdges := (keptM.zip durs).map (fun x =>
    { f := x.1.1.1, m := x.1.1.2, start := t * dt, endTime := t * dt + x.2,
      acts := x.1.2 : Edge })
  { edges := s.edges ++ newEdges
    partners := fun a => s.partners a + (newInds.count a : Int)
    rshipStartDates := fun a => if a ∈ newInds then some t else s.rshipStartDates a
    rshipEndDates := s.rshipEndDates
    nRships := fun a => s.nRships a + newInds.count a }

/-- The matched pairs discarded by `create_partnerships` because their
age-scaled act count is not positive (people.py:290). -/
def discardedPairs (fs ms : List Nat) (scaledActs : List ℚ) : List (Nat × Nat) :=
  if fs.length = 0 then [] else
  (((fs.zip ms).zip scaledActs).filter (fun x => !decide (0 < x.2))).map (·.1)

/-- The spec invariant (spec §4.2/§8): the current-partner counter equals the
number of active edges touching the agent in the layer. -/
def partnerInvariant (s : LayerState) : Prop :=
  ∀ a, s.partners a = (touchCount a s.edges : Int)

/-- The state from which the network update departs in the concrete
counterexamples: no edges, all counters zero. -/
def netEmpty : LayerState :=
  { edges := [], partners := fun _ => 0, rshipStartDates := fun _ => none,
    rshipEndDates := fun _ => none, nRships := fun _ => 0 }

/-! ## Disease states (people.py, state-transition methods)

The per-agent per-genotype boolean state arrays and NaN-able date/duration
arrays of `People`, embedded as functions of genotype and agent index.
`self.t` is the current timestep.  The flow counters mutated directly by
`infect` are carried in the state; the `check_*` methods return their counts
(as in the source, where `update_states_pre` stores the returned values). -/

structure PeopleState where
  nAgents : Nat
  t : ℚ
  susceptible : Nat → Nat → Bool
  infectious : Nat → Nat → Bool
  noDysp : Nat → Nat → Bool
  cin1 : Nat → Nat → Bool
  cin2 : Nat → Nat → Bool
  cin3 : Nat → Nat → Bool
  cancerous : Nat → Nat → Bool
  latent : Nat → Nat → Bool
  alive : Nat → Bool
  isFemale : Nat → Bool
  deadOther : Nat → Bool
  deadCancer : Nat → Bool
  emigrated : Nat → Bool
  dateInfectious : Nat → Nat → Option ℚ
  dateExposed : Nat → Nat → Option ℚ
  dateClearance : Nat → Nat → Option ℚ
  dateCin1 : Nat → Nat → Option ℚ
  dateCin2 : Nat → Nat → Option ℚ
  dateCin3 : Nat → Nat → Option ℚ
  dateCancerous : Nat → Nat → Option ℚ
  dateDeadOther : Nat → Option ℚ
  dateDeadCancer : Nat → Option ℚ
  durPrecin : Nat → Nat → Option ℚ
  durDisease : Nat → Nat → Option ℚ
  flowsInfections : Nat → Nat
  flowsReinfections : Nat → Nat
  flowsReactivations : Nat → Nat
  totalInfections : Nat
  totalReinfections : Nat
  totalReactivations : Nat
  infectionsBySexF : Nat
  infectionsBySexM : Nat

/-- Vectorized boolean write `arr[g, inds] = b` for one genotype row. -/
def setBoolG (f : Nat → Nat → Bool) (g : Nat) (inds : List Nat) (b : Bool) :
    Nat → Nat → Bool :=
  fun g' i => if g' = g ∧ i ∈ inds then b else f g' i

/-- Vectorized boolean write `arr[:, inds] = b` across all genotypes. -/
def setBoolAll (f : Nat → Nat → Bool) (inds : List Nat) (b : Bool) :
    Nat → Nat → Bool :=
  fun g' i => if i ∈ inds then b else f g' i

/-- Vectorized scalar date write `arr[g, inds] = v` for one genotype row. -/
def setDateG (d : Nat → Nat → Option ℚ) (g : Nat) (inds : List Nat) (v : Option ℚ) :
    Nat → Nat → Option ℚ :=
  fun g' i => if g' = g ∧ i ∈ inds then v else d g' i

/-- Vectorized scalar date write `arr[:, inds] = v` across all genotypes. -/
def setDateAll (d : Nat → Nat → Option ℚ) (inds : List Nat) (v : Option ℚ) :
    Nat → Nat → Option ℚ :=
  fun g' i => if i ∈ inds then v else d g' i

/-- Positional vector write `arr[g, inds] = vals` (numpy fancy assignment:
for a duplicated index the last occurrence wins). -/
def assignVecG (d : Nat → Nat → Option ℚ) (g : Nat) (inds : List Nat) (vals : List ℚ) :
    Nat → Nat → Option ℚ :=
  fun g' i =>
    if g' = g then
      match ((inds.zip vals).filter (fun p => p.1 = i)).getLast? with
      | some p => some p.2
      | none => d g' i
    else d g' i

/-- `date <= x` under NaN semantics: any comparison against NaN (`none`) is
false, as in numpy. -/
def leNaN (d : Option ℚ) (x : ℚ) : Bool :=
  match d with
  | some v => decide (v ≤ x)
  | none => false

/-- `date >= x` under NaN semantics. -/
def geNaN (d : Option ℚ) (x : ℚ) : Bool :=
  match d with
  | some v => decide (x ≤ v)
  | none => false

/-- Embeds `People.check_inds` (people.py:312-320): indices among
`filterInds` whose current state is false, whose date is defined (non-NaN),
and whose date has been reached (`self.t >= date`). -/
def checkInds (t : ℚ) (current : Nat → Bool) (date : Nat → Option ℚ)
    (filterInds : List Nat) : List Nat :=
  ((filterInds.filter (fun i => !current i)).filter
    (fun i => (date i).isSome)).filter (fun i => leNaN (date i) t)

/-- Embeds `People.check_inds_true` (people.py:322-330): same but requiring
the current state to be true. -/
def checkIndsTrue (t : ℚ) (current : Nat → Bool) (date : Nat → Option ℚ)
    (filterInds : List Nat) : List Nat :=
  ((filterInds.filter current).filter
    (fun i => (date i).isSome)).filter (fun i => leNaN (date i) t)

/-- Embeds `BasePeople.true_by_genotype` as used at people.py:344 etc.: the
indices for which a genotype-row boolean array is true. -/
def trueByGenotype (flag : Nat → Nat → Bool) (g : Nat) (n : Nat) : List Nat :=
  (List.range n).filter (flag g)

/-- Embeds `People.check_cin1` (people.py:332-340).  The filter keeps
infectious females who have not already cleared (`~(date_clearance <= t)`)
and whose CIN2 date has not yet passed (`date_cin2 >= t`); eligible agents
whose CIN1 date has been reached get `cin1 = True`, `no_dysp = False`.
`infectious` is not modified. -/
def check_cin1 (s : PeopleState) (g : Nat) : PeopleState × Nat :=
  let filters := fun i => s.infectious g i && s.isFemale i &&
    !(leNaN (s.dateClearance g i) s.t) && geNaN (s.dateCin2 g i) s.t
  let filterInds := (List.range s.nAgents).filter filters
  let inds := checkInds s.t (s.cin1 g) (s.dateCin1 g) filterInds
  ({ s with cin1 := setBoolG s.cin1 g inds true,
            noDysp := setBoolG s.noDysp g inds false }, inds.length)

/-- Embeds `People.check_cin2` (people.py:342-348): eligible CIN1 agents
whose CIN2 date has been reached get `cin2 = True`, `cin1 = False`. -/
def check_cin2 (s : PeopleState) (g : Nat) : PeopleState × Nat :=
  let filterInds := trueByGenotype s.cin1 g s.nAgents
  let inds := checkInds s.t (s.cin2 g) (s.dateCin2 g) filterInds
  ({ s with cin2 := setBoolG s.cin2 g inds true,
            cin1 := setBoolG s.cin1 g inds false }, inds.length)

/-- Embeds `People.check_cin3` (people.py:350-356). -/
def check_cin3 (s : PeopleState) (g : Nat) : PeopleState × Nat :=
  let filterInds := trueByGenotype s.cin2 g s.nAgents
  let inds := checkInds s.t (s.cin3 g) (s.dateCin3 g) filterInds
  ({ s with cin3 := setBoolG s.cin3 g inds true,
            cin2 := setBoolG s.cin2 g inds false }, inds.length)

/-- Embeds `People.check_cancer` (people.py:358-373): eligible CIN3 agents
whose cancer date has been reached get `cancerous = True`, `cin3 = False`;
their susceptibility to *all* genotypes is cleared and their clearance dates
for *all* genotypes are set to NaN.  (The age-standardized incidence
histogram of lines 367-371 is pure statistics and is not part of the
state.)  `cancer_inds` is the index selection of lines 360-361. -/
def cancer_inds (s : PeopleState) (g : Nat) : List Nat :=
  checkInds s.t (s.cancerous g) (s.dateCancerous g) (trueByGenotype s.cin3 g s.nAgents)

/-- The state update of `People.check_cancer` on the selected indices. -/
def check_cancer (s : PeopleState) (g : Nat) : PeopleState × Nat :=
  let inds := cancer_inds s g
  ({ s with cancerous := setBoolG s.cancerous g inds true,
            cin3 := setBoolG s.cin3 g inds false,
            susceptible := setBoolAll s.susceptible inds false,
            dateClearance := setDateAll s.dateClearance inds none }, inds.length)

/-- Default of `pars['hpv_control_prob']` (parameters.py:92): the
probability that a cleared infection is controlled latently instead. -/
def hpv_control_prob_default : ℚ := 0

/-- Modelled from the spec: `hpu.binomial_arr` (utils.py, not under src)
draws one uniform variate in [0,1) per entry and returns `draw < prob`; an
event of probability 0 therefore never fires.  `draws i` is the variate
drawn for agent `i`. -/
def binomialDraw (draws : Nat → ℚ) (p : ℚ) (i : Nat) : Bool :=
  decide (draws i < p)

/-- Embeds `People.check_clearance` (people.py:390-418): infectious agents
whose clearance date has been reached either become latent (with probability
`hpv_control_prob`) or clear fully, returning to susceptible with all grade
flags reset.  `hpimm.update_peak_immunity` (immunity.py, not under src)
updates only the immunity levels, which are not part of this state.
`clearance_inds` is the index selection of lines 394-395. -/
def clearance_inds (s : PeopleState) (g : Nat) : List Nat :=
  checkIndsTrue s.t (s.infectious g) (s.dateClearance g)
    (trueByGenotype s.infectious g s.nAgents)

/-- The state update of `People.check_clearance` on the selected indices. -/
def check_clearance (s : PeopleState) (g : Nat) (p : ℚ) (draws : Nat → ℚ) :
    PeopleState :=
  let inds := clearance_inds s g
  let latentInds := inds.filter (fun i => binomialDraw draws p i)
  let clearedInds := inds.filter (fun i => !binomialDraw draws p i)
  let s1 := { s with
    susceptible := setBoolG s.susceptible g clearedInds true,
    infectious := setBoolG s.infectious g inds false,
    noDysp := setBoolG s.noDysp g inds false,
    cin1 := setBoolG s.cin1 g inds false,
    cin2 := setBoolG s.cin2 g inds false,
    cin3 := setBoolG s.cin3 g inds false }
  if latentInds.length ≠ 0 then
    { s1 with latent := setBoolG s1.latent g latentInds true,
              dateClearance := setDateG s1.dateClearance g latentInds none }
  else s1

/-- Modelled from the spec: `hpu.set_prognoses` (utils.py, not under src)
schedules, for newly infected females, the severity-derived grade/cancer
transition dates, the clearance date, and the extended disease duration
(spec §4.4: "each transition scheduled at the time severity first crosses
the next cut-point").  The scheduled values are oracle data per agent; the
function writes only date and duration fields, never the state flags. -/
structure PrognosisDates where
  durDisease : Nat → Option ℚ
  dCin1 : Nat → Option ℚ
  dCin2 : Nat → Option ℚ
  dCin3 : Nat → Option ℚ
  dCancerous : Nat → Option ℚ
  dClearance : Nat → Option ℚ

/-- Modelled from the spec: applying `hpu.set_prognoses` for genotype `g`
to the female subset `fgInds` writes the scheduled dates and durations. -/
def setPrognoses (s : PeopleState) (g : Nat) (fgInds : List Nat)
    (pd : PrognosisDates) : PeopleState :=
  { s with
    durDisease := fun g' i =>
      if g' = g ∧ i ∈ fgInds then pd.durDisease i else s.durDisease g' i
    dateCin1 := fun g' i =>
      if g' = g ∧ i ∈ fgInds then pd.dCin1 i else s.dateCin1 g' i
    dateCin2 := fun g' i =>
      if g' = g ∧ i ∈ fgInds then pd.dCin2 i else s.dateCin2 g' i
    dateCin3 := fun g' i =>
      if g' = g ∧ i ∈ fgInds then pd.dCin3 i else s.dateCin3 g' i
    dateCancerous := fun g' i =>
      if g' = g ∧ i ∈ fgInds then pd.dCancerous i else s.dateCancerous g' i
    dateClearance := fun g' i =>
      if g' = g ∧ i ∈ fgInds then pd.dClearance i else s.dateClearance g' i }

/-- The tail of `People.infect` (people.py:675-687) shared by both duration
branches: assign `dur_precin` and `dur_disease` positionally, apply the
prognosis schedule to the female subset (guarded on it being non-empty),
and set the male subset's clearance date to
`date_infectious + ceil(dur_precin/dt)` (NaN-propagating). -/
def infectFinish (s : PeopleState) (g : Nat) (inds : List Nat) (thisDur : List ℚ)
    (dt : ℚ) (pd : PrognosisDates) : PeopleState :=
  let s7 := { s with durPrecin := assignVecG s.durPrecin g inds thisDur,
                     durDisease := assignVecG s.durDisease g inds thisDur }
  let fgInds := inds.filter s7.isFemale
  let s8 := if fgInds.length ≠ 0 then setPrognoses s7 g fgInds pd else s7
  let mInds := inds.filter (fun i => !s8.isFemale i)
  if mInds.length ≠ 0 then
    { s8 with dateClearance := fun g' i =>
        if g' = g ∧ i ∈ mInds then
          match s8.dateInfectious g i, s8.durPrecin g i with
          | some b, some dp => some (b + ((dp / dt).ceil : ℚ))
          | _, _ => none
        else s8.dateClearance g' i }
  else s8

/-- Embeds `People.infect` (people.py:598-687), lines 626-657: the date,
flow and flag updates performed before the duration handling.  `inds` is
the target index array, which — like the numpy array in the source — may
contain duplicates; no deduplication is performed (despite the docstring's
claim), so `len(inds)` counts duplicates in the flow increments.  `offset`
and `layer` are the keyword arguments. -/
def infectPre (s : PeopleState) (g : Nat) (inds : List Nat) (offset : Option ℚ)
    (layer : String) : PeopleState :=
  let baseT : ℚ := match offset with
    | some o => s.t + o
    | none => s.t
  let s1 := { s with dateInfectious := setDateG s.dateInfectious g inds (some baseT) }
  let s2 := if layer ≠ "reactivation" then
      { s1 with dateExposed := setDateG s1.dateExposed g inds (some baseT) }
    else s1
  let reinf := (inds.filter (fun i => (s2.dateClearance g i).isSome)).length
  let s3 := { s2 with
    flowsReinfections := fun g' =>
      if g' = g then s2.flowsReinfections g' + reinf else s2.flowsReinfections g'
    totalReinfections := s2.totalReinfections + reinf
    dateClearance := setDateG s2.dateClearance g inds none }
  let s4 := if layer = "reactivation" then
      { s3 with
        flowsReactivations := fun g' =>
          if g' = g then s3.flowsReactivations g' + inds.length
          else s3.flowsReactivations g'
        totalReactivations := s3.totalReactivations + inds.length
        latent := setBoolG s3.latent g inds false }
    else s3
  let s5 := { s4 with susceptible := setBoolG s4.susceptible g inds false,
                      infectious := setBoolG s4.infectious g inds true }
  match offset with
  | none =>
    { s5 with
      totalInfections := s5.totalInfections + inds.length
      flowsInfections := fun g' =>
        if g' = g then s5.flowsInfections g' + inds.length
        else s5.flowsInfections g'
      infectionsBySexF := s5.infectionsBySexF + (inds.filter s5.isFemale).length
      infectionsBySexM := s5.infectionsBySexM +
        (inds.filter (fun i => !s5.isFemale i)).length }
  | some _ => s5

/-- The full `People.infect` (people.py:598-687): an empty index array
returns immediately; otherwise `infectPre` runs, then the duration
branches: `dt` is `pars['dt']`, `sampledDur` stands for the
`hpu.sample(**dur_precin, size=len(inds))` draw (utils.py, not under src)
used when `dur is None`, and `pd` is the prognosis oracle for the female
subset.  (In the sampling branch the source passes the *pre-assignment*
`self.dur_precin` values to `set_prognoses`; since the prognosis output is
oracle data here, those values do not enter the model.)  Supplying an
explicit `dur` of the wrong length raises `ValueError`. -/
def infect (s : PeopleState) (g : Nat) (inds : List Nat) (offset : Option ℚ)
    (dur : Option (List ℚ)) (layer : String) (dt : ℚ) (sampledDur : List ℚ)
    (pd : PrognosisDates) : Except String (PeopleState × Nat) :=
  if inds.length = 0 then .ok (s, 0) else
  let s6 := infectPre s g inds offset layer
  match dur with
  | some d =>
    if d.length ≠ inds.length then
      .error "If supplying durations of infections, they must be the same length as inds."
    else
      .ok (infectFinish s6 g inds d dt pd, inds.length)
  | none => .ok (infectFinish s6 g inds sampledDur dt pd, inds.length)

/-- The unconditional part of `People.remove_people` (people.py:704-723),
run after the cause-specific branch: clear all disease-state flags and the
alive flag for the removed agents, then wipe scheduled dates.  The list of
date fields (`self.meta.dates`, defaults.py, not under src) is modelled as
the date fields referenced in people.py; the wipe condition is exactly the
source's: one-dimensional date fields are nulled when `date > self.t`
(strict), per-genotype (two-dimensional) fields when `date >= self.t`. -/
def removeCore (s : PeopleState) (inds : List Nat) : PeopleState :=
  let wipe2 : (Nat → Nat → Option ℚ) → Nat → Nat → Option ℚ := fun d g i =>
    if i ∈ inds then
      match d g i with
      | some v => if s.t ≤ v then none else some v
      | none => none
    else d g i
  let wipe1 : (Nat → Option ℚ) → Nat → Option ℚ := fun d i =>
    if i ∈ inds then
      match d i with
      | some v => if s.t < v then none else some v
      | none => none
    else d i
  { s with
    susceptible := setBoolAll s.susceptible inds false
    infectious := setBoolAll s.infectious inds false
    cin1 := setBoolAll s.cin1 inds false
    cin2 := setBoolAll s.cin2 inds false
    cin3 := setBoolAll s.cin3 inds false
    cancerous := setBoolAll s.cancerous inds false
    alive := fun i => if i ∈ inds then false else s.alive i
    dateInfectious := wipe2 s.dateInfectious
    dateExposed := wipe2 s.dateExposed
    dateClearance := wipe2 s.dateClearance
    dateCin1 := wipe2 s.dateCin1
    dateCin2 := wipe2 s.dateCin2
    dateCin3 := wipe2 s.dateCin3
    dateCancerous := wipe2 s.dateCancerous
    dateDeadOther := wipe1 s.dateDeadOther
    dateDeadCancer := wipe1 s.dateDeadCancer }

/-- Embeds `People.remove_people` (people.py:690-725).  The cause branch
runs first: an unknown cause raises `ValueError` before any write, so the
error carries the untouched state; a valid cause records its flag (and for
`other` the death date `self.t`) and then applies `removeCore`. -/
def remove_people (s : PeopleState) (inds : List Nat) (cause : String) :
    Except (String × PeopleState) (PeopleState × Nat) :=
  if cause = "other" then
    .ok (removeCore
      { s with
        dateDeadOther := fun i => if i ∈ inds then some s.t else s.dateDeadOther i
        deadOther := fun i => if i ∈ inds then true else s.deadOther i } inds,
      inds.length)
  else if cause = "cancer" then
    .ok (removeCore
      { s with deadCancer := fun i => if i ∈ inds then true else s.deadCancer i } inds,
      inds.length)
  else if cause = "emigration" then
    .ok (removeCore
      { s with emigrated := fun i => if i ∈ inds then true else s.emigrated i } inds,
      inds.length)
  else
    .error ("Cause of death must be one of other, cancer, or emigration.", s)

/-- The resulting state of a `remove_people` call, when it succeeded. -/
def okState (r : Except (String × PeopleState) (PeopleState × Nat)) :
    Option PeopleState :=
  match r with
  | .ok x => some x.1
  | .error _ => none

/-- The resulting state of an `infect` call, when it succeeded. -/
def infectOk (r : Except String (PeopleState × Nat)) : Option PeopleState :=
  match r with
  | .ok x => some x.1
  | .error _ => none

/-- The wipe applied by `remove_people` to a per-genotype date value:
nulled when `date >= t`. -/
def wipeGe (t : ℚ) (d : Option ℚ) : Option ℚ :=
  match d with
  | some v => if t ≤ v then none else some v
  | none => none

/-- The wipe applied by `remove_people` to a one-dimensional date value:
nulled when `date > t` (strict). -/
def wipeGt (t : ℚ) (d : Option ℚ) : Option ℚ :=
  match d with
  | some v => if t < v then none else some v
  | none => none

/-- The seven per-genotype disease-state flags of the spec's claimed
mutual-exclusion invariant, for one agent and genotype. -/
def sevenStates (s : PeopleState) (g i : Nat) : List Bool :=
  [s.susceptible g i, s.infectious g i, s.cin1 g i, s.cin2 g i, s.cin3 g i,
   s.cancerous g i, s.latent g i]

/-- At most one of three boolean flags is set. -/
def atMostOne3 (a b c : Bool) : Bool :=
  !(a && b) && !(a && c) && !(b && c)

/-- The mutual-exclusion invariant that the code actually maintains: for
every genotype and agent, at most one of susceptible, infectious and latent
is true. -/
def exclusiveSIL (s : PeopleState) : Prop :=
  ∀ g i, atMostOne3 (s.susceptible g i) (s.infectious g i) (s.latent g i) = true

/-- The state-updating operations of `People` applied during a step, as
invoked by `update_states_pre` and `Sim.step`. -/
inductive PeopleOp where
  | cin1Step (g : Nat)
  | cin2Step (g : Nat)
  | cin3Step (g : Nat)
  | cancerStep (g : Nat)
  | clearanceStep (g : Nat) (p : ℚ) (draws : Nat → ℚ)
  | infectStep (g : Nat) (inds : List Nat) (offset : Option ℚ)
      (dur : Option (List ℚ)) (layer : String) (dt : ℚ) (sampledDur : List ℚ)
      (pd : PrognosisDates)
  | removeStep (inds : List Nat) (cause : String)

/-- Apply one operation; a raising call (`ValueError`) leaves the state as
it was. -/
def applyOp (op : PeopleOp) (s : PeopleState) : PeopleState :=
  match op with
  | .cin1Step g => (check_cin1 s g).1
  | .cin2Step g => (check_cin2 s g).1
  | .cin3Step g => (check_cin3 s g).1
  | .cancerStep g => (check_cancer s g).1
  | .clearanceStep g p draws => check_clearance s g p draws
  | .infectStep g inds offset dur layer dt sampledDur pd =>
    match infect s g inds offset dur layer dt sampledDur pd with
    | .ok x => x.1
    | .error _ => s
  | .removeStep inds cause =>
    match remove_people s inds cause with
    | .ok x => x.1
    | .error _ => s

/-- Caller contract of the operations: `infect` outside the reactivation
pathway only targets non-latent agents (transmission and seeding select
susceptible targets; `compute_infections` draws targets from the
susceptible pool, spec §4.3).  The other operations select their own
indices. -/
def opWF (op : PeopleOp) (s : PeopleState) : Prop :=
  match op with
  | .infectStep g inds _ _ layer _ _ _ =>
    layer = "reactivation" ∨ ∀ i ∈ inds, s.latent g i = false
  | _ => True

/-- A baseline concrete population for witnesses and counterexamples: four
agents (even indices female), all alive and fully susceptible at timestep
10, no scheduled dates, zero flows. -/
def pplBase : PeopleState where
  nAgents := 4
  t := 10
  susceptible := fun _ _ => true
  infectious := fun _ _ => false
  noDysp := fun _ _ => false
  cin1 := fun _ _ => false
  cin2 := fun _ _ => false
  cin3 := fun _ _ => false
  cancerous := fun _ _ => false
  latent := fun _ _ => false
  alive := fun _ => true
  isFemale := fun i => i % 2 = 0
  deadOther := fun _ => false
  deadCancer := fun _ => false
  emigrated := fun _ => false
  dateInfectious := fun _ _ => none
  dateExposed := fun _ _ => none
  dateClearance := fun _ _ => none
  dateCin1 := fun _ _ => none
  dateCin2 := fun _ _ => none
  dateCin3 := fun _ _ => none
  dateCancerous := fun _ _ => none
  dateDeadOther := fun _ => none
  dateDeadCancer := fun _ => none
  durPrecin := fun _ _ => none
  durDisease := fun _ _ => none
  flowsInfections := fun _ => 0
  flowsReinfections := fun _ => 0
  flowsReactivations := fun _ => 0
  totalInfections := 0
  totalReinfections := 0
  totalReactivations := 0
  infectionsBySexF := 0
  infectionsBySexM := 0

/-- A trivial prognosis oracle (no scheduled dates). -/
def pdNone : PrognosisDates where
  durDisease := fun _ => none
  dCin1 := fun _ => none
  dCin2 := fun _ => none
  dCin3 := fun _ => none
  dCancerous := fun _ => none
  dClearance := fun _ => none

/-- Concrete state for the C2 counterexample: agent 0 (female) is
infectious with genotype 0, her CIN1 date (5) has passed and her CIN2 date
(20) has not. -/
def pplC2 : PeopleState :=
  { pplBase with
    susceptible := fun g i => ¬(g = 0 ∧ i = 0)
    infectious := fun g i => g = 0 ∧ i = 0
    dateCin1 := fun g i => if g = 0 ∧ i = 0 then some 5 else none
    dateCin2 := fun g i => if g = 0 ∧ i = 0 then some 20 else none }

/-- Concrete state for the C3 counterexample: agent 0 has CIN3 for genotype
0 with a due cancer date, and a future CIN2 date (15) scheduled for
genotype 1. -/
def pplC3 : PeopleState :=
  { pplBase with
    susceptible := fun _g i => ¬(i = 0)
    infectious := fun _g i => i = 0
    cin3 := fun g i => g = 0 ∧ i = 0
    dateCancerous := fun g i => if g = 0 ∧ i = 0 then some 10 else none
    dateCin2 := fun g i => if g = 1 ∧ i = 0 then some 15 else none }

/-- Concrete state for the C4 counterexample: agent 0 has a per-genotype
date (cancer, genotype 0) scheduled exactly at the current timestep 10,
and a one-dimensional cancer-death date also at 10. -/
def pplC4 : PeopleState :=
  { pplBase with
    dateCancerous := fun g i => if g = 0 ∧ i = 0 then some 10 else none
    dateDeadCancer := fun i => if i = 0 then some 10 else none }

/-- Concrete state for the C6 witness: agent 0 (female) is infectious with
genotype 0 and her clearance date (8) has passed. -/
def pplC6 : PeopleState :=
  { pplBase with
    susceptible := fun g i => ¬(g = 0 ∧ i = 0)
    infectious := fun g i => g = 0 ∧ i = 0
    dateClearance := fun g i => if g = 0 ∧ i = 0 then some 8 else none }

/-! ## Severity functional forms (parameters.py:647-744)

`hpu.logf2` / `hpu.logf3` / `hpu.intlogf2` and their inverses live in
utils.py (not under src); the dispatchers take them as function arguments.
The `form` entry of the parameter dict is `None`, one of the strings
`'logf2'`/`'logf3'`, a Python callable, or an unrecognized value. -/

inductive SevForm where
  | noneForm
  | logf2
  | logf3
  | callableForm (f : ℚ → ℚ)
  | unknown (name : String)

/-- The Python exceptions relevant to the severity dispatchers. -/
inductive PyExn where
  | notImplementedError
  | unboundLocalError
  deriving DecidableEq, Repr

/-- Embeds `compute_severity` (parameters.py:647-677): scale `t` by
`rel_sev`, then dispatch on the functional form; an unrecognized form
raises `NotImplementedError`. -/
def compute_severity (t : ℚ) (relSev : Option ℚ) (form : SevForm)
    (f2 f3 : ℚ → ℚ) : Except PyExn ℚ :=
  let tScaled := match relSev with
    | some r => r * t
    | none => t
  match form with
  | .noneForm => .ok (f2 tScaled)
  | .logf2 => .ok (f2 tScaled)
  | .logf3 => .ok (f3 tScaled)
  | .callableForm f => .ok (f tScaled)
  | .unknown _ => .error .notImplementedError

/-- Embeds `compute_inv_severity` (parameters.py:680-710): dispatch on the
form (an unrecognized form raises `NotImplementedError`), then scale the
output by `rel_sev`. -/
def compute_inv_severity (sev : ℚ) (relSev : Option ℚ) (form : SevForm)
    (invf2 invf3 : ℚ → ℚ) : Except PyExn ℚ :=
  let out : Except PyExn ℚ := match form with
    | .noneForm => .ok (invf2 sev)
    | .logf2 => .ok (invf2 sev)
    | .logf3 => .ok (invf3 sev)
    | .callableForm f => .ok (f sev)
    | .unknown _ => .error .notImplementedError
  match out, relSev with
  | .ok v, some r => .ok (v / r)
  | o, _ => o

/-- Embeds `compute_severity_integral` (parameters.py:713-744).  There is
no callable branch here, so a callable falls into the raising `else`.  In
the `logf3` branch with `s != 1` the source (line 738) only *assigns* the
error message and never raises it: control falls through to
`return output` with the local `output` never assigned, so the call raises
`UnboundLocalError`, not `NotImplementedError`. -/
def compute_severity_integral (t : ℚ) (relSev : Option ℚ) (form : SevForm)
    (s : ℚ) (intf2 : ℚ → ℚ) : Except PyExn ℚ :=
  let tScaled := match relSev with
    | some r => r * t
    | none => t
  match form with
  | .noneForm => .ok (intf2 tScaled)
  | .logf2 => .ok (intf2 tScaled)
  | .logf3 =>
    if s = 1 then .ok (intf2 tScaled)
    else .error .unboundLocalError
  | .callableForm _ => .error .notImplementedError
  | .unknown _ => .error .notImplementedError

/-! ## The seeded run loop (sim.py:49-62, 246-319, 322-382) -/

/-- Modelled from the spec (§5: "a single seedable stream ... must produce
reproducible runs for a fixed seed"): `set_seed` (base.py/utils.py, not
under src) puts the global stream into a state determined by the seed
alone.  The stream state is abstracted as a natural number. -/
def seedStream (seed : Nat) : Nat := seed

/-- Modelled from the spec: drawing `n` variates advances the stream. -/
def drawFrom (state n : Nat) : Nat := state + n

/-- Modelled from the spec: re-seeding discards the current stream
position. -/
def reseed (_current seed : Nat) : Nat := seedStream seed

/-- The state of a running `Sim`: the people object, the RNG stream state,
the timestep, and the per-timestep flow records written into
`self.results` so far (one record per executed step, in order). -/
structure SimState (P F : Type) where
  people : P
  rng : Nat
  t : Nat
  flows : List F

/-- Embeds `Sim.initialize` (sim.py:49-62): `set_seed()`, create the people
(`init_people`, consuming `popDraws` draws from the stream), then
`set_seed()` again "so the random number stream is consistent". -/
def simInit {P F : Type} (mkPeople : Nat → P) (seed popDraws : Nat) :
    SimState P F :=
  let r0 := seedStream seed
  let people := mkPeople r0
  let r1 := drawFrom r0 popDraws
  { people := people, rng := reseed r1 seed, t := 0, flows := [] }

/-- One body of the `while self.t < until` loop: `Sim.step` advances the
people and the stream deterministically and appends this step's flow
record to the results (`stepF` is the step function: sim.py:246-319
computes it from the people state and the stream alone). -/
def doStep {P F : Type} (stepF : P → Nat → P × Nat × F) (st : SimState P F) :
    SimState P F :=
  let r := stepF st.people st.rng
  { people := r.1, rng := r.2.1, t := st.t + 1, flows := st.flows ++ [r.2.2] }

/-- Embeds the main loop of `Sim.run` (sim.py:353-376): while `t < until`,
check the wall-clock time limit (`env t` is the elapsed time the timer
reports at iteration `t` — the only nondeterministic input), check the
stopping function, then step. -/
def runAux {P F : Type} (stepF : P → Nat → P × Nat × F)
    (stopF : P → Nat → Bool) (timelimit : Option ℚ) (env : Nat → ℚ)
    (until' : Nat) : Nat → SimState P F → SimState P F
  | 0, st => st
  | fuel + 1, st =>
    if st.t < until' then
      if (match timelimit with
          | some tl => decide (env st.t > tl)
          | none => false) then st
      else if stopF st.people st.t then st
      else runAux stepF stopF timelimit env until' fuel (doStep stepF st)
    else st

/-- A full `Sim.run` after `Sim.initialize`, running up to `until'` steps. -/
def simRun {P F : Type} (stepF : P → Nat → P × Nat × F)
    (stopF : P → Nat → Bool) (timelimit : Option ℚ) (env : Nat → ℚ)
    (until' : Nat) (mkPeople : Nat → P) (seed popDraws : Nat) : SimState P F :=
  runAux stepF stopF timelimit env until' until'
    (simInit mkPeople seed popDraws)

/-- `n` unconditional steps. -/
def stepN {P F : Type} (stepF : P → Nat → P × Nat × F) :
    Nat → SimState P F → SimState P F
  | 0, st => st
  | n + 1, st => stepN stepF n (doStep stepF st)

/-! ## Theorems -/

/-! ### Counting lemmas for the network update -/

theorem sum_map_filter_split {α : Type} (w : α → ℕ) (p : α → Bool) (l : List α) :
    ((l.filter p).map w).sum + ((l.filter (fun x => !p x)).map w).sum = (l.map w).sum := by
  induction l with
  | nil => simp
  | cons x xs ih =>
    cases h : p x <;> simp [List.filter_cons, h] <;> omega

theorem touchCount_append (a : Nat) (l₁ l₂ : List Edge) :
    touchCount a (l₁ ++ l₂) = touchCount a l₁ + touchCount a l₂ := by
  simp [touchCount]

theorem touchCount_filter_split (a : Nat) (p : Edge → Bool) (l : List Edge) :
    touchCount a (l.filter p) + touchCount a (l.filter (fun e => !p e)) = touchCount a l :=
  sum_map_filter_split _ p l

theorem sum_map_add_split {α : Type} (u v : α → ℕ) (l : List α) :
    (l.map (fun x => u x + v x)).sum = (l.map u).sum + (l.map v).sum := by
  induction l with
  | nil => rfl
  | cons x xs ih => simp only [List.map_cons, List.sum_cons, ih]; omega

theorem count_eq_sum_ite (a : Nat) (l : List Nat) :
    l.count a = (l.map (fun x => if x = a then 1 else 0)).sum := by
  induction l with
  | nil => rfl
  | cons x xs ih =>
    simp only [List.count_cons, List.map_cons, List.sum_cons, ih]
    by_cases h : x = a
    · simp [h]; omega
    · simp [h]

theorem count_map_field {α : Type} (a : Nat) (g : α → Nat) (l : List α) :
    (l.map g).count a = (l.map (fun x => if g x = a then 1 else 0)).sum := by
  rw [count_eq_sum_ite, List.map_map]; rfl

theorem count_endpoints (a : Nat) (l : List Edge) :
    (l.map (·.f) ++ l.map (·.m)).count a = touchCount a l := by
  rw [List.count_append, count_map_field, count_map_field]
  unfold touchCount
  induction l with
  | nil => rfl
  | cons e t ih => simp only [List.map_cons, List.sum_cons]; omega

theorem count_append_eq_pairTouch (a : Nat) (fs ms : List Nat) (h : fs.length = ms.length) :
    (fs ++ ms).count a = pairTouch a (fs.zip ms) := by
  rw [List.count_append, count_eq_sum_ite a fs, count_eq_sum_ite a ms]
  unfold pairTouch
  induction fs generalizing ms with
  | nil =>
    cases ms with
    | nil => rfl
    | cons y ys => simp at h
  | cons x xs ih =>
    cases ms with
    | nil => simp at h
    | cons y ys =>
      have h' : xs.length = ys.length := by simpa using h
      have ihx := ih ys h'
      simp only [List.map_cons, List.sum_cons, List.zip_cons_cons] at ihx ⊢
      omega

theorem pairTouch_map_fst {β : Type} (a : Nat) (l : List ((Nat × Nat) × β)) :
    pairTouch a (l.map (·.1)) = (l.map (fun x => (if x.1.1 = a then 1 else 0) +
      (if x.1.2 = a then 1 else 0))).sum := by
  rw [pairTouch, List.map_map]; rfl

theorem touchCount_cons (a : Nat) (e : Edge) (es : List Edge) :
    touchCount a (e :: es)
      = ((if e.f = a then 1 else 0) + (if e.m = a then 1 else 0)) + touchCount a es := by
  simp [touchCount]

/-- The edges built by `create_partnerships` from the kept matched pairs touch
each agent exactly as often as the kept pairs involve it (the duration list
is at least as long as the kept-pair list, as in the source where it is
sampled with size `final_n_new`). -/
theorem touchCount_newEdges (t dt : ℚ) (l : List ((Nat × Nat) × ℚ)) (durs : List ℚ)
    (h : l.length ≤ durs.length) (a : Nat) :
    touchCount a ((l.zip durs).map (fun x =>
      { f := x.1.1.1, m := x.1.1.2, start := t * dt, endTime := t * dt + x.2,
        acts := x.1.2 : Edge }))
    = (l.map (fun x => (if x.1.1 = a then 1 else 0) + (if x.1.2 = a then 1 else 0))).sum := by
  induction l generalizing durs with
  | nil => rfl
  | cons x xs ih =>
    cases durs with
    | nil => simp at h
    | cons d ds =>
      have h' : xs.length ≤ ds.length := by simpa using h
      simp only [List.zip_cons_cons, List.map_cons, List.sum_cons]
      rw [touchCount_cons, ih ds h']

/-- `dissolve_partnerships` preserves the partner-count invariant: the
decrement applied to each agent is exactly its number of endpoint
occurrences among the dissolved edges. -/
theorem dissolve_preserves_invariant (alive : Nat → Bool) (curTime t : ℚ)
    (s : LayerState) (h : partnerInvariant s) :
    partnerInvariant (dissolvePships alive curTime t s).1 := by
  intro a
  have hsplit := touchCount_filter_split a (toDissolve alive curTime) s.edges
  have hcnt := count_endpoints a (s.edges.filter (toDissolve alive curTime))
  simp only [dissolvePships, h a]
  rw [List.count_append] at hcnt
  rw [List.count_append]
  omega

/-- Accounting lemma for `create_partnerships`: starting from a state whose
partner counters match its edges, after the method runs each agent's counter
equals the number of edges touching it plus the number of this step's
matched-but-discarded (zero scaled acts) pairs involving it. -/
theorem create_partner_accounting (t dt : ℚ) (fs ms : List Nat)
    (scaledActs durs : List ℚ) (s : LayerState)
    (hlen : fs.length = ms.length) (hacts : scaledActs.length = fs.length)
    (hdurs : durs.length =
      (((fs.zip ms).zip scaledActs).filter (fun x => decide (0 < x.2))).length)
    (hinv : partnerInvariant s) :
    ∀ a, (createPships t dt fs ms scaledActs durs s).partners a
      = (touchCount a (createPships t dt fs ms scaledActs durs s).edges : Int)
        + (pairTouch a (discardedPairs fs ms scaledActs) : Int) := by
  intro a
  by_cases hfs : fs.length = 0
  · simp only [createPships, discardedPairs, if_pos hfs, pairTouch, List.map_nil,
      List.sum_nil, Nat.cast_zero, add_zero]
    exact hinv a
  · have W : (Nat × Nat) × ℚ → ℕ :=
      fun x => (if x.1.1 = a then 1 else 0) + (if x.1.2 = a then 1 else 0)
    simp only [createPships, discardedPairs, if_neg hfs]
    have hzlen : (fs.zip ms).length ≤ scaledActs.length := by
      rw [List.length_zip, hacts]; omega
    have hfst : ((fs.zip ms).zip scaledActs).map (fun x => x.1) = fs.zip ms :=
      List.map_fst_zip _ _ hzlen
    -- count over the concatenated matched index arrays = pairTouch over matched pairs
    have hA : (fs ++ ms).count a = pairTouch a (fs.zip ms) :=
      count_append_eq_pairTouch a fs ms hlen
    have hB : pairTouch a (fs.zip ms)
        = (((fs.zip ms).zip scaledActs).map (fun x =>
            (if x.1.1 = a then 1 else 0) + (if x.1.2 = a then 1 else 0))).sum := by
      conv_lhs => rw [← hfst]
      rw [pairTouch_map_fst]
    -- split the matched pairs into kept and discarded
    have hC := sum_map_filter_split
      (fun x : (Nat × Nat) × ℚ => (if x.1.1 = a then 1 else 0) + (if x.1.2 = a then 1 else 0))
      (fun x => decide (0 < x.2)) ((fs.zip ms).zip scaledActs)
    -- the new edges realize exactly the kept pairs
    have hkle : ((((fs.zip ms).zip scaledActs).filter
        (fun x => decide (0 < x.2)))).length ≤ durs.length := by omega
    have hE : touchCount a (((((fs.zip ms).zip scaledActs).filter
          (fun x => decide (0 < x.2))).zip durs).map (fun x =>
            { f := x.1.1.1, m := x.1.1.2, start := t * dt, endTime := t * dt + x.2,
              acts := x.1.2 : Edge }))
        = ((((fs.zip ms).zip scaledActs).filter (fun x => decide (0 < x.2))).map
            (fun x => (if x.1.1 = a then 1 else 0) + (if x.1.2 = a then 1 else 0))).sum :=
      touchCount_newEdges t dt _ durs hkle a
    -- discarded pairs contribute their own touches
    have hF : pairTouch a ((((fs.zip ms).zip scaledActs).filter
          (fun x => !decide (0 < x.2))).map (fun x => x.1))
        = ((((fs.zip ms).zip scaledActs).filter (fun x => !decide (0 < x.2))).map
            (fun x => (if x.1.1 = a then 1 else 0) + (if x.1.2 = a then 1 else 0))).sum :=
      pairTouch_map_fst a _
    have hG := hinv a
    rw [touchCount_append]
    rw [hE, hF]
    omega

/-- Claim C1, corrected.  After `dissolve_partnerships` and
`create_partnerships` have both completed in a step, an agent's
`current_partners[layer]` equals the number of active edges touching it in
that layer *plus* the number of this step's matched pairs involving it that
were discarded for a zero scaled act-count (given that the counter matched
the edges before the step).  Equality with the bare edge count — the claim
as stated — holds only when no pair involving the agent was discarded. -/
theorem partner_count_with_discarded (alive : Nat → Bool) (curTime t dt : ℚ)
    (fs ms : List Nat) (scaledActs durs : List ℚ) (s : LayerState)
    (hlen : fs.length = ms.length) (hacts : scaledActs.length = fs.length)
    (hdurs : durs.length =
      (((fs.zip ms).zip scaledActs).filter (fun x => decide (0 < x.2))).length)
    (hinv : partnerInvariant s) :
    ∀ a, (createPships t dt fs ms scaledActs durs
            (dissolvePships alive curTime t s).1).partners a
      = (touchCount a (createPships t dt fs ms scaledActs durs
            (dissolvePships alive curTime t s).1).edges : Int)
        + (pairTouch a (discardedPairs fs ms scaledActs) : Int) :=
  create_partner_accounting t dt fs ms scaledActs durs _ hlen hacts hdurs
    (dissolve_preserves_invariant alive curTime t s hinv)

/-- Witness for `partner_count_with_discarded`: a concrete step with one kept
pair (agents 0,1) and one discarded pair (agents 2,3); agent 2's counter is
1 while it touches 0 edges and 1 discarded pair. -/
theorem partner_count_with_discarded_witness :
    (createPships 2 1 [0, 2] [1, 3] [3, 0] [7]
        (dissolvePships (fun _ => true) 2 2 netEmpty).1).partners 2
      = (touchCount 2 (createPships 2 1 [0, 2] [1, 3] [3, 0] [7]
            (dissolvePships (fun _ => true) 2 2 netEmpty).1).edges : Int)
        + (pairTouch 2 (discardedPairs [0, 2] [1, 3] [3, 0]) : Int) :=
  partner_count_with_discarded (fun _ => true) 2 2 1 [0, 2] [1, 3] [3, 0] [7] netEmpty
    (by decide) (by decide) (by decide) (fun a => rfl) 2

/-- Counterexample to claim C1 as stated: one matched pair whose scaled act
count is zero is discarded from the contact list, but both endpoints'
partner counters were already incremented, so after dissolve+create the
counter (1) differs from the number of active edges touching the agent (0). -/
theorem partner_invariant_zero_act_cex :
    (createPships 0 1 [0] [1] [0] []
        (dissolvePships (fun _ => true) 0 0 netEmpty).1).partners 0 = 1
    ∧ touchCount 0 (createPships 0 1 [0] [1] [0] []
        (dissolvePships (fun _ => true) 0 0 netEmpty).1).edges = 0
    ∧ ¬ partnerInvariant (createPships 0 1 [0] [1] [0] []
        (dissolvePships (fun _ => true) 0 0 netEmpty).1) := by
  refine ⟨by decide, by decide, fun h => ?_⟩
  have h0 := h 0
  revert h0
  decide

/-- Claim C5, corrected.  `dissolve_partnerships` dissolves an edge only
when the current time *strictly* exceeds its end time (or an endpoint has
died): a layer holding one edge between two live distinct agents is emptied
at any current time past the end time, and each endpoint's counter drops by
exactly 1.  (At current time exactly equal to the end time the edge
survives — see the counterexample.) -/
theorem dissolve_after_end_time (e : Edge) (partners0 : Nat → Int)
    (rsd red : Nat → Option ℚ) (nr : Nat → Nat) (alive : Nat → Bool)
    (curTime t : ℚ) (haf : alive e.f = true) (ham : alive e.m = true)
    (hfm : e.f ≠ e.m) (hend : e.endTime < curTime) :
    (dissolvePships alive curTime t
        ⟨[e], partners0, rsd, red, nr⟩).1.edges = []
    ∧ (dissolvePships alive curTime t
        ⟨[e], partners0, rsd, red, nr⟩).1.partners e.f = partners0 e.f - 1
    ∧ (dissolvePships alive curTime t
        ⟨[e], partners0, rsd, red, nr⟩).1.partners e.m = partners0 e.m - 1
    ∧ (dissolvePships alive curTime t ⟨[e], partners0, rsd, red, nr⟩).2 = 1 := by
  have hdiss : toDissolve alive curTime e = true := by
    simp [toDissolve, haf, ham, hend]
  refine ⟨?_, ?_, ?_, ?_⟩ <;>
    simp [dissolvePships, hdiss, List.count_cons, hfm, Ne.symm hfm]

/-- Witness for `dissolve_after_end_time`: the edge ending at time 5 is
dissolved at current time 5.25 (the next timestep at dt=0.25) and both
endpoints' counters drop from 1 to 0. -/
theorem dissolve_after_end_time_witness :
    (dissolvePships (fun _ => true) (21/4 : ℚ) 21
        ⟨[⟨0, 1, 0, 5, 2⟩], fun a => if a ≤ 1 then 1 else 0,
          fun _ => none, fun _ => none, fun _ => 0⟩).1.edges = []
    ∧ (dissolvePships (fun _ => true) (21/4 : ℚ) 21
        ⟨[⟨0, 1, 0, 5, 2⟩], fun a => if a ≤ 1 then 1 else 0,
          fun _ => none, fun _ => none, fun _ => 0⟩).1.partners 0
      = (if (0 : Nat) ≤ 1 then (1 : Int) else 0) - 1
    ∧ (dissolvePships (fun _ => true) (21/4 : ℚ) 21
        ⟨[⟨0, 1, 0, 5, 2⟩], fun a => if a ≤ 1 then 1 else 0,
          fun _ => none, fun _ => none, fun _ => 0⟩).1.partners 1
      = (if (1 : Nat) ≤ 1 then (1 : Int) else 0) - 1
    ∧ (dissolvePships (fun _ => true) (21/4 : ℚ) 21
        ⟨[⟨0, 1, 0, 5, 2⟩], fun a => if a ≤ 1 then 1 else 0,
          fun _ => none, fun _ => none, fun _ => 0⟩).2 = 1 :=
  dissolve_after_end_time ⟨0, 1, 0, 5, 2⟩ (fun a => if a ≤ 1 then 1 else 0)
    (fun _ => none) (fun _ => none) (fun _ => 0) (fun _ => true) (21/4 : ℚ) 21
    (by decide) (by decide) (by decide) (by norm_num)

/-- Counterexample to claim C5 as stated: the dissolution condition is
`t*dt > end`, strict, so at current time exactly 5 a layer with one edge
ending at 5 keeps that edge and neither endpoint's counter changes. -/
theorem dissolve_at_end_time_cex :
    (dissolvePships (fun _ => true) 5 20
        ⟨[⟨0, 1, 0, 5, 2⟩], fun a => if a ≤ 1 then 1 else 0,
          fun _ => none, fun _ => none, fun _ => 0⟩).1.edges = [⟨0, 1, 0, 5, 2⟩]
    ∧ (dissolvePships (fun _ => true) 5 20
        ⟨[⟨0, 1, 0, 5, 2⟩], fun a => if a ≤ 1 then 1 else 0,
          fun _ => none, fun _ => none, fun _ => 0⟩).1.partners 0 = 1
    ∧ (dissolvePships (fun _ => true) 5 20
        ⟨[⟨0, 1, 0, 5, 2⟩], fun a => if a ≤ 1 then 1 else 0,
          fun _ => none, fun _ => none, fun _ => 0⟩).1.partners 1 = 1
    ∧ (dissolvePships (fun _ => true) 5 20
        ⟨[⟨0, 1, 0, 5, 2⟩], fun a => if a ≤ 1 then 1 else 0,
          fun _ => none, fun _ => none, fun _ => 0⟩).2 = 0 := by
  refine ⟨?_, ?_, ?_, ?_⟩ <;> decide

/-- Claim C10: `remove_people` with a cause outside
{"other", "cancer", "emigration"} raises `ValueError` before any write; the
error carries the state exactly as it was passed in, so the operation is
atomic on error. -/
theorem remove_people_invalid_cause_atomic (s : PeopleState) (inds : List Nat)
    (cause : String) (h1 : cause ≠ "other") (h2 : cause ≠ "cancer")
    (h3 : cause ≠ "emigration") :
    remove_people s inds cause
      = .error ("Cause of death must be one of other, cancer, or emigration.", s) := by
  simp [remove_people, h1, h2, h3]

/-- Witness for `remove_people_invalid_cause_atomic` at a concrete state and
cause. -/
theorem remove_people_invalid_cause_atomic_witness :
    remove_people pplBase [0, 2] "accident"
      = .error ("Cause of death must be one of other, cancer, or emigration.",
          pplBase) :=
  remove_people_invalid_cause_atomic pplBase [0, 2] "accident"
    (by decide) (by decide) (by decide)

/-- Claim C8, showing the code bug: `compute_severity_integral` on form
`logf3` with `s != 1` assigns its error message without raising it, so the
call fails with `UnboundLocalError` at `return output` instead of
`NotImplementedError`; the other unsupported combinations (unrecognized
form in any of the three dispatchers, callable form in the integral) do
raise `NotImplementedError`, and `logf3` with `s = 1` succeeds. -/
theorem severity_integral_logf3_unbound :
    compute_severity_integral 1 none .logf3 2 id = .error .unboundLocalError
    ∧ compute_severity_integral 1 none .logf3 2 id ≠ .error .notImplementedError
    ∧ compute_severity_integral 1 none .logf3 1 id = .ok 1
    ∧ compute_severity 1 none (.unknown "badform") id id
        = .error .notImplementedError
    ∧ compute_inv_severity 1 none (.unknown "badform") id id
        = .error .notImplementedError
    ∧ compute_severity_integral 1 none (.unknown "badform") 1 id
        = .error .notImplementedError
    ∧ compute_severity_integral 1 none (.callableForm id) 1 id
        = .error .notImplementedError := by
  refine ⟨rfl, ?_, rfl, rfl, rfl, rfl, rfl⟩
  intro h
  injection h with h3
  exact PyExn.noConfusion h3

/-- Claim C4, corrected.  `remove_people` with a valid cause wipes, for each
removed agent, the one-dimensional date fields with value strictly greater
than `t` (`>`), but the per-genotype date fields with value greater than
*or equal to* `t` (`>=`): a per-genotype date equal to the removal time is
nulled too, not preserved.  Dates strictly before `t` are preserved in both
kinds, and for cause "other" the just-recorded death date `t` is
preserved by the strict one-dimensional wipe. -/
theorem remove_people_wipes_future_dates (s : PeopleState) (inds : List Nat)
    (cause : String)
    (hc : cause = "other" ∨ cause = "cancer" ∨ cause = "emigration")
    (i : Nat) (hi : i ∈ inds) (g : Nat) :
    (okState (remove_people s inds cause)).map (fun s2 => s2.dateInfectious g i)
      = some (wipeGe s.t (s.dateInfectious g i))
    ∧ (okState (remove_people s inds cause)).map (fun s2 => s2.dateExposed g i)
      = some (wipeGe s.t (s.dateExposed g i))
    ∧ (okState (remove_people s inds cause)).map (fun s2 => s2.dateClearance g i)
      = some (wipeGe s.t (s.dateClearance g i))
    ∧ (okState (remove_people s inds cause)).map (fun s2 => s2.dateCin1 g i)
      = some (wipeGe s.t (s.dateCin1 g i))
    ∧ (okState (remove_people s inds cause)).map (fun s2 => s2.dateCin2 g i)
      = some (wipeGe s.t (s.dateCin2 g i))
    ∧ (okState (remove_people s inds cause)).map (fun s2 => s2.dateCin3 g i)
      = some (wipeGe s.t (s.dateCin3 g i))
    ∧ (okState (remove_people s inds cause)).map (fun s2 => s2.dateCancerous g i)
      = some (wipeGe s.t (s.dateCancerous g i))
    ∧ (okState (remove_people s inds cause)).map (fun s2 => s2.dateDeadCancer i)
      = some (wipeGt s.t (s.dateDeadCancer i))
    ∧ (cause = "other" →
        (okState (remove_people s inds cause)).map (fun s2 => s2.dateDeadOther i)
          = some (some s.t))
    ∧ (cause ≠ "other" →
        (okState (remove_people s inds cause)).map (fun s2 => s2.dateDeadOther i)
          = some (wipeGt s.t (s.dateDeadOther i))) := by
  rcases hc with h | h | h <;> subst h <;>
    refine ⟨?_, ?_, ?_, ?_, ?_, ?_, ?_, ?_, ?_, ?_⟩ <;>
    simp [remove_people, okState, removeCore, wipeGe, wipeGt, hi, lt_irrefl]

/-- Witness for `remove_people_wipes_future_dates` at the concrete state
`pplC4` (removal at t = 10 with a genotype-0 cancer date and a cancer-death
date both equal to 10): the per-genotype date at exactly t is nulled, the
one-dimensional date at exactly t survives. -/
theorem remove_people_wipes_future_dates_witness :
    (okState (remove_people pplC4 [0] "other")).map (fun s2 => s2.dateCancerous 0 0)
      = some (wipeGe pplC4.t (pplC4.dateCancerous 0 0))
    ∧ (okState (remove_people pplC4 [0] "other")).map (fun s2 => s2.dateDeadCancer 0)
      = some (wipeGt pplC4.t (pplC4.dateDeadCancer 0))
    ∧ wipeGe pplC4.t (pplC4.dateCancerous 0 0) = none
    ∧ wipeGt pplC4.t (pplC4.dateDeadCancer 0) = some 10 := by
  have h := remove_people_wipes_future_dates pplC4 [0] "other" (Or.inl rfl) 0
    (by decide) 0
  exact ⟨h.2.2.2.2.2.2.1, h.2.2.2.2.2.2.2.1, by decide, by decide⟩

/-- Counterexample to claim C4 as stated: a per-genotype date equal to the
removal time `t` (not strictly greater) is nulled by `remove_people`
because the two-dimensional wipe uses `>= self.t`. -/
theorem remove_people_eq_date_cex :
    (okState (remove_people pplC4 [0] "other")).map (fun s2 => s2.dateCancerous 0 0)
      = some none
    ∧ pplC4.dateCancerous 0 0 = some pplC4.t := by
  refine ⟨?_, by decide⟩
  decide

/-- Claim C3, corrected.  When an agent transitions to cancerous for
genotype `g` via `check_cancer`, susceptibility is cleared for *all*
genotypes and the clearance dates for all genotypes are set to NaN — but
the other scheduled transition dates (CIN1/2/3, cancer, infectiousness
dates) are left untouched for every genotype, so a future date scheduled
for another genotype can remain. -/
theorem check_cancer_clears_sus_and_clearance (s : PeopleState) (g i g2 : Nat)
    (hi : i ∈ cancer_inds s g) :
    (check_cancer s g).1.susceptible g2 i = false
    ∧ (check_cancer s g).1.dateClearance g2 i = none
    ∧ (check_cancer s g).1.cancerous g i = true
    ∧ (check_cancer s g).1.cin3 g i = false
    ∧ (check_cancer s g).1.dateCin1 = s.dateCin1
    ∧ (check_cancer s g).1.dateCin2 = s.dateCin2
    ∧ (check_cancer s g).1.dateCin3 = s.dateCin3
    ∧ (check_cancer s g).1.dateCancerous = s.dateCancerous
    ∧ (check_cancer s g).1.dateInfectious = s.dateInfectious := by
  refine ⟨?_, ?_, ?_, ?_, rfl, rfl, rfl, rfl, rfl⟩ <;>
    simp [check_cancer, setBoolAll, setDateAll, setBoolG, hi]

/-- Witness for `check_cancer_clears_sus_and_clearance` at the concrete
state `pplC3` (agent 0 reaches cancer for genotype 0; genotype 1 fields
are queried). -/
theorem check_cancer_clears_sus_and_clearance_witness :
    (check_cancer pplC3 0).1.susceptible 1 0 = false
    ∧ (check_cancer pplC3 0).1.dateClearance 1 0 = none
    ∧ (check_cancer pplC3 0).1.cancerous 0 0 = true :=
  let h := check_cancer_clears_sus_and_clearance pplC3 0 0 1 (by decide)
  ⟨h.1, h.2.1, h.2.2.1⟩

/-- Counterexample to claim C3 as stated: after agent 0 turns cancerous for
genotype 0 at t = 10, the scheduled future CIN2 date (15 > t) for genotype
1 is still present — `check_cancer` clears only the clearance dates, not
every future scheduled date of other genotypes. -/
theorem check_cancer_future_date_remains_cex :
    (check_cancer pplC3 0).1.cancerous 0 0 = true
    ∧ (check_cancer pplC3 0).1.dateCin2 1 0 = some 15
    ∧ pplC3.t = 10 := by
  refine ⟨?_, ?_, ?_⟩ <;> decide

/-- `infectFinish` only writes duration and date fields: the boolean state
flags are untouched. -/
theorem infectFinish_flags (x : PeopleState) (g : Nat) (inds : List Nat)
    (d : List ℚ) (dt : ℚ) (pd : PrognosisDates) :
    (infectFinish x g inds d dt pd).susceptible = x.susceptible
    ∧ (infectFinish x g inds d dt pd).infectious = x.infectious
    ∧ (infectFinish x g inds d dt pd).latent = x.latent := by
  refine ⟨?_, ?_, ?_⟩ <;> (simp only [infectFinish]; split <;> split <;> rfl)

/-- The flag effect of `infectPre`: susceptibility cleared and
infectiousness set on the targets; latency cleared exactly on the
reactivation pathway. -/
theorem infectPre_flags (s : PeopleState) (g : Nat) (inds : List Nat)
    (offset : Option ℚ) (layer : String) :
    (infectPre s g inds offset layer).susceptible = setBoolG s.susceptible g inds false
    ∧ (infectPre s g inds offset layer).infectious = setBoolG s.infectious g inds true
    ∧ (infectPre s g inds offset layer).latent
      = (if layer = "reactivation" then setBoolG s.latent g inds false else s.latent) := by
  by_cases hl : layer = "reactivation" <;> cases offset <;>
    refine ⟨?_, ?_, ?_⟩ <;> simp [infectPre, hl]

/-- An `infect` call with sampled durations succeeds and, for every target,
leaves it non-susceptible and infectious. -/
theorem infect_flags_pointwise (s : PeopleState) (g : Nat) (inds : List Nat)
    (offset : Option ℚ) (layer : String) (dt : ℚ) (sd : List ℚ)
    (pd : PrognosisDates) (i : Nat) (hi : i ∈ inds) :
    (infectOk (infect s g inds offset none layer dt sd pd)).map
      (fun s2 => (s2.susceptible g i, s2.infectious g i)) = some (false, true) := by
  have hne : ¬ inds.length = 0 := by
    cases inds with
    | nil => cases hi
    | cons a l => simp
  have h1 := (infectFinish_flags (infectPre s g inds offset layer) g inds sd dt pd).1
  have h2 := (infectFinish_flags (infectPre s g inds offset layer) g inds sd dt pd).2.1
  have h3 := (infectPre_flags s g inds offset layer).1
  have h4 := (infectPre_flags s g inds offset layer).2.1
  simp only [infect, if_neg hne, infectOk, Option.map, h1, h2, h3, h4, setBoolG]
  simp [hi]

/-- Claim C6: with the latency probability at its default 0
(`hpv_control_prob`, parameters.py:92) and uniform draws in [0,1), every
agent selected for clearance of genotype `g` by `check_clearance` ends the
call susceptible, non-infectious and with all grade flags false for `g`
(and is not made latent), and a later `infect` call on that agent succeeds
and makes the agent infected again — a round trip through the susceptible
state. -/
theorem clearance_roundtrip (s : PeopleState) (g : Nat) (draws : Nat → ℚ)
    (hdraws : ∀ j, 0 ≤ draws j) (i : Nat) (hi : i ∈ clearance_inds s g)
    (layer : String) (dt : ℚ) (sampledDur : List ℚ) (pd : PrognosisDates) :
    (check_clearance s g hpv_control_prob_default draws).susceptible g i = true
    ∧ (check_clearance s g hpv_control_prob_default draws).infectious g i = false
    ∧ (check_clearance s g hpv_control_prob_default draws).cin1 g i = false
    ∧ (check_clearance s g hpv_control_prob_default draws).cin2 g i = false
    ∧ (check_clearance s g hpv_control_prob_default draws).cin3 g i = false
    ∧ (check_clearance s g hpv_control_prob_default draws).latent g i = s.latent g i
    ∧ (infectOk (infect (check_clearance s g hpv_control_prob_default draws) g
          [i] none none layer dt sampledDur pd)).map
        (fun s2 => (s2.susceptible g i, s2.infectious g i)) = some (false, true) := by
  have hb : ∀ j, binomialDraw draws hpv_control_prob_default j = false := by
    intro j
    simp only [binomialDraw, hpv_control_prob_default, decide_eq_false_iff_not]
    exact not_lt.mpr (hdraws j)
  have hlat : (clearance_inds s g).filter
      (fun j => binomialDraw draws hpv_control_prob_default j) = [] := by
    rw [List.filter_eq_nil_iff]
    intro a _
    simp [hb a]
  have hcl : i ∈ (clearance_inds s g).filter
      (fun j => !binomialDraw draws hpv_control_prob_default j) :=
    List.mem_filter.mpr ⟨hi, by simp [hb i]⟩
  refine ⟨?_, ?_, ?_, ?_, ?_, ?_,
    infect_flags_pointwise _ g [i] none layer dt sampledDur pd i (by simp)⟩ <;>
    simp [check_clearance, hlat, setBoolG, hi, hcl]

/-- Witness for `clearance_roundtrip` at the concrete state `pplC6`: agent
0 clears genotype 0 at t = 10 and is then reinfected. -/
theorem clearance_roundtrip_witness :
    (check_clearance pplC6 0 hpv_control_prob_default (fun _ => (1/2 : ℚ))).susceptible 0 0 = true
    ∧ (check_clearance pplC6 0 hpv_control_prob_default (fun _ => (1/2 : ℚ))).infectious 0 0 = false
    ∧ (check_clearance pplC6 0 hpv_control_prob_default (fun _ => (1/2 : ℚ))).cin1 0 0 = false
    ∧ (check_clearance pplC6 0 hpv_control_prob_default (fun _ => (1/2 : ℚ))).cin2 0 0 = false
    ∧ (check_clearance pplC6 0 hpv_control_prob_default (fun _ => (1/2 : ℚ))).cin3 0 0 = false
    ∧ (check_clearance pplC6 0 hpv_control_prob_default (fun _ => (1/2 : ℚ))).latent 0 0
      = pplC6.latent 0 0
    ∧ (infectOk (infect (check_clearance pplC6 0 hpv_control_prob_default (fun _ => (1/2 : ℚ)))
          0 [0] none none "c" 1 [2] pdNone)).map
        (fun s2 => (s2.susceptible 0 0, s2.infectious 0 0)) = some (false, true) :=
  clearance_roundtrip pplC6 0 (fun _ => (1/2 : ℚ)) (fun _ => by norm_num) 0 (by decide)
    "c" 1 [2] pdNone

/-- Claim C7, showing the code bug: `People.infect` does not deduplicate
its target array even though its docstring says it does.  Calling it with
agent 1 listed twice sets the state flags once (fancy indexing is
idempotent) but adds `len(inds) = 2` to the per-genotype infections flow
and the total, where the single-occurrence call adds 1. -/
theorem infect_duplicate_counts_twice :
    (infectOk (infect pplBase 0 [1, 1] none none "m" 1 [2, 2] pdNone)).map
      (fun s2 => (s2.flowsInfections 0, s2.totalInfections, s2.susceptible 0 1,
        s2.infectious 0 1)) = some (2, 2, false, true)
    ∧ (infectOk (infect pplBase 0 [1] none none "m" 1 [2] pdNone)).map
      (fun s2 => (s2.flowsInfections 0, s2.totalInfections, s2.susceptible 0 1,
        s2.infectious 0 1)) = some (1, 1, false, true) := by
  refine ⟨?_, ?_⟩ <;> decide

/-- Selection for clearance implies the agent is currently infectious for
that genotype (`check_inds_true` keeps only true current states). -/
theorem mem_clearance_inds (s : PeopleState) (g i : Nat)
    (hi : i ∈ clearance_inds s g) : s.infectious g i = true := by
  simp only [clearance_inds, checkIndsTrue, List.mem_filter] at hi
  exact hi.1.1.2

/-- The susceptibility array after `check_clearance`. -/
theorem check_clearance_susceptible (s : PeopleState) (g : Nat) (p : ℚ)
    (draws : Nat → ℚ) :
    (check_clearance s g p draws).susceptible
      = setBoolG s.susceptible g
          ((clearance_inds s g).filter (fun j => !binomialDraw draws p j)) true := by
  simp only [check_clearance]
  split <;> rfl

/-- The infectiousness array after `check_clearance`. -/
theorem check_clearance_infectious (s : PeopleState) (g : Nat) (p : ℚ)
    (draws : Nat → ℚ) :
    (check_clearance s g p draws).infectious
      = setBoolG s.infectious g (clearance_inds s g) false := by
  simp only [check_clearance]
  split <;> rfl

/-- The latency array after `check_clearance` (the emptiness guard in the
source is behaviorally irrelevant: writing to an empty index set is the
identity). -/
theorem check_clearance_latent (s : PeopleState) (g : Nat) (p : ℚ)
    (draws : Nat → ℚ) :
    (check_clearance s g p draws).latent
      = setBoolG s.latent g
          ((clearance_inds s g).filter (fun j => binomialDraw draws p j)) true := by
  simp only [check_clearance]
  split
  · rfl
  · rename_i hlen
    have hnil : (clearance_inds s g).filter (fun j => binomialDraw draws p j) = [] :=
      List.length_eq_zero.mp (not_ne_iff.mp hlen)
    funext g' i
    rw [hnil]
    simp [setBoolG]

/-- The {susceptible, infectious, latent} exclusion survives the state
written by a successful `infect` call, given the caller contract. -/
theorem exclusiveSIL_infect_state (s : PeopleState) (g : Nat) (inds : List Nat)
    (offset : Option ℚ) (layer : String) (dlist : List ℚ) (dt : ℚ)
    (pd : PrognosisDates)
    (hwf : layer = "reactivation" ∨ ∀ i ∈ inds, s.latent g i = false)
    (hs : exclusiveSIL s) :
    exclusiveSIL (infectFinish (infectPre s g inds offset layer) g inds dlist dt pd) := by
  intro g' i
  have h := hs g' i
  rw [(infectFinish_flags (infectPre s g inds offset layer) g inds dlist dt pd).1,
    (infectFinish_flags (infectPre s g inds offset layer) g inds dlist dt pd).2.1,
    (infectFinish_flags (infectPre s g inds offset layer) g inds dlist dt pd).2.2,
    (infectPre_flags s g inds offset layer).1,
    (infectPre_flags s g inds offset layer).2.1,
    (infectPre_flags s g inds offset layer).2.2]
  simp only [setBoolG]
  by_cases hg : g' = g
  · subst hg
    by_cases hin : i ∈ inds
    · rcases hwf with hl | hnl
      · simp [hin, hl, atMostOne3, setBoolG]
      · by_cases hl : layer = "reactivation" <;>
          simp [hin, hl, hnl i hin, atMostOne3, setBoolG]
    · revert h
      simp only [hin, and_false, if_false]
      by_cases hl : layer = "reactivation" <;> simp [hl, hin, setBoolG]
  · revert h
    simp only [hg, false_and, if_false]
    by_cases hl : layer = "reactivation" <;> simp [hl, hg, setBoolG]

/-- Claim C2, corrected.  The exclusion the code maintains is among
{susceptible, infectious, latent}: every state-updating operation of a
step preserves it (given `infect`'s caller contract that non-reactivation
targets are not latent).  The grade and cancer flags are *not* exclusive
with infectiousness — see the counterexample, where an infectious agent
also holds `cin1`. -/
theorem exclusive_SIL_preserved (op : PeopleOp) (s : PeopleState)
    (hwf : opWF op s) (hs : exclusiveSIL s) : exclusiveSIL (applyOp op s) := by
  cases op with
  | cin1Step g => exact hs
  | cin2Step g => exact hs
  | cin3Step g => exact hs
  | cancerStep g =>
    intro g' i
    have h := hs g' i
    show atMostOne3 (setBoolAll s.susceptible (cancer_inds s g) false g' i)
      (s.infectious g' i) (s.latent g' i) = true
    simp only [setBoolAll]
    by_cases hm : i ∈ cancer_inds s g
    · revert h
      cases s.susceptible g' i <;> cases s.infectious g' i <;>
        cases s.latent g' i <;> simp [atMostOne3, hm]
    · simpa [hm] using h
  | clearanceStep g p draws =>
    intro g' i
    have h := hs g' i
    show atMostOne3 ((check_clearance s g p draws).susceptible g' i)
      ((check_clearance s g p draws).infectious g' i)
      ((check_clearance s g p draws).latent g' i) = true
    rw [check_clearance_susceptible, check_clearance_infectious,
      check_clearance_latent]
    simp only [setBoolG]
    by_cases hg : g' = g
    · subst hg
      by_cases hin : i ∈ clearance_inds s g'
      · have hinf : s.infectious g' i = true := mem_clearance_inds s g' i hin
        have hsus : s.susceptible g' i = false := by
          revert h
          rw [hinf]
          cases s.susceptible g' i <;> simp [atMostOne3]
        have hlat : s.latent g' i = false := by
          revert h
          rw [hinf]
          cases s.latent g' i <;> simp [atMostOne3]
        by_cases hd : binomialDraw draws p i = true
        · have h1 : i ∈ (clearance_inds s g').filter
              (fun j => binomialDraw draws p j) :=
            List.mem_filter.mpr ⟨hin, hd⟩
          have h2 : i ∉ (clearance_inds s g').filter
              (fun j => !binomialDraw draws p j) := by
            intro hmem
            have := (List.mem_filter.mp hmem).2
            simp [hd] at this
          simp [h1, h2, hin, hsus, atMostOne3]
        · have h1 : i ∉ (clearance_inds s g').filter
              (fun j => binomialDraw draws p j) := by
            intro hmem
            exact hd (of_decide_eq_true (by
              simpa using (List.mem_filter.mp hmem).2))
          have h2 : i ∈ (clearance_inds s g').filter
              (fun j => !binomialDraw draws p j) :=
            List.mem_filter.mpr ⟨hin, by simp [hd]⟩
          simp [h1, h2, hin, hlat, atMostOne3]
      · have h1 : i ∉ (clearance_inds s g').filter
            (fun j => binomialDraw draws p j) := by
          intro hmem
          exact hin (List.mem_filter.mp hmem).1
        have h2 : i ∉ (clearance_inds s g').filter
            (fun j => !binomialDraw draws p j) := by
          intro hmem
          exact hin (List.mem_filter.mp hmem).1
        simpa [h1, h2, hin] using h
    · simpa [hg] using h
  | infectStep g inds offset dur layer dt sampledDur pd =>
    have hwf2 : layer = "reactivation" ∨ ∀ i ∈ inds, s.latent g i = false := hwf
    by_cases hlen : inds.length = 0
    · simpa [applyOp, infect, hlen] using hs
    · cases dur with
      | none =>
        have : applyOp (.infectStep g inds offset none layer dt sampledDur pd) s
            = infectFinish (infectPre s g inds offset layer) g inds sampledDur dt pd := by
          simp [applyOp, infect, hlen]
        rw [this]
        exact exclusiveSIL_infect_state s g inds offset layer sampledDur dt pd hwf2 hs
      | some d =>
        by_cases hd : d.length = inds.length
        · have : applyOp (.infectStep g inds offset (some d) layer dt sampledDur pd) s
              = infectFinish (infectPre s g inds offset layer) g inds d dt pd := by
            simp [applyOp, infect, hlen, hd]
          rw [this]
          exact exclusiveSIL_infect_state s g inds offset layer d dt pd hwf2 hs
        · simpa [applyOp, infect, hlen, hd] using hs
  | removeStep inds cause =>
    have hcore : ∀ s0 : PeopleState, s0.susceptible = s.susceptible →
        s0.infectious = s.infectious → s0.latent = s.latent → s0.t = s.t →
        exclusiveSIL (removeCore s0 inds) := by
      intro s0 e1 e2 e3 e4
      intro g' i
      have h := hs g' i
      show atMostOne3 (setBoolAll s0.susceptible inds false g' i)
        (setBoolAll s0.infectious inds false g' i) (s0.latent g' i) = true
      rw [e1, e2, e3]
      simp only [setBoolAll]
      by_cases hm : i ∈ inds
      · simp [hm, atMostOne3]
      · simpa [hm] using h
    by_cases h1 : cause = "other"
    · have : applyOp (.removeStep inds cause) s = removeCore
          { s with
            dateDeadOther := fun i => if i ∈ inds then some s.t else s.dateDeadOther i
            deadOther := fun i => if i ∈ inds then true else s.deadOther i } inds := by
        simp [applyOp, remove_people, h1]
      rw [this]
      exact hcore _ rfl rfl rfl rfl
    · by_cases h2 : cause = "cancer"
      · have : applyOp (.removeStep inds cause) s = removeCore
            { s with deadCancer := fun i => if i ∈ inds then true else s.deadCancer i }
            inds := by
          simp [applyOp, remove_people, h1, h2]
        rw [this]
        exact hcore _ rfl rfl rfl rfl
      · by_cases h3 : cause = "emigration"
        · have : applyOp (.removeStep inds cause) s = removeCore
              { s with emigrated := fun i => if i ∈ inds then true else s.emigrated i }
              inds := by
            simp [applyOp, remove_people, h1, h2, h3]
          rw [this]
          exact hcore _ rfl rfl rfl rfl
        · simpa [applyOp, remove_people, h1, h2, h3] using hs

/-- Witness for `exclusive_SIL_preserved`: a CIN1 check on the baseline
population, evaluated at genotype 0, agent 0. -/
theorem exclusive_SIL_preserved_witness :
    atMostOne3 ((applyOp (.cin1Step 0) pplBase).susceptible 0 0)
      ((applyOp (.cin1Step 0) pplBase).infectious 0 0)
      ((applyOp (.cin1Step 0) pplBase).latent 0 0) = true :=
  exclusive_SIL_preserved (.cin1Step 0) pplBase trivial (fun _ _ => rfl) 0 0

/-- Counterexample to claim C2 as stated: `check_cin1` sets `cin1` without
clearing `infectious` (people.py:338 — CIN coexists with infection), so
after a due CIN1 transition agent 0 has two of the seven states true for
genotype 0. -/
theorem seven_state_exclusion_cex :
    (check_cin1 pplC2 0).1.infectious 0 0 = true
    ∧ (check_cin1 pplC2 0).1.cin1 0 0 = true
    ∧ ¬ ((sevenStates (check_cin1 pplC2 0).1 0 0).count true ≤ 1) := by
  refine ⟨?_, ?_, ?_⟩ <;> decide

/-- The double `set_seed` in `Sim.initialize` makes the initial state a
function of the seed alone: the number of draws population creation
consumed does not matter. -/
theorem simInit_indep_of_draws {P F : Type} (mkPeople : Nat → P)
    (seed d1 d2 : Nat) :
    (simInit mkPeople seed d1 : SimState P F) = simInit mkPeople seed d2 := rfl

/-- Each executed step appends exactly one flow record. -/
theorem stepN_flows_length {P F : Type} (stepF : P → Nat → P × Nat × F)
    (n : Nat) (st : SimState P F) :
    (stepN stepF n st).flows.length = st.flows.length + n := by
  induction n generalizing st with
  | zero => rfl
  | succ k ih =>
    show (stepN stepF k (doStep stepF st)).flows.length = st.flows.length + (k + 1)
    rw [ih]
    simp [doStep]
    omega

/-- The run loop is the pure step chain cut off at some length: the
wall-clock environment and the stopping function only decide *where* it
stops, never *what* the executed prefix is. -/
theorem runAux_eq_stepN {P F : Type} (stepF : P → Nat → P × Nat × F)
    (stopF : P → Nat → Bool) (timelimit : Option ℚ) (env : Nat → ℚ)
    (until' : Nat) :
    ∀ (fuel : Nat) (st : SimState P F),
      ∃ n, runAux stepF stopF timelimit env until' fuel st = stepN stepF n st := by
  intro fuel
  induction fuel with
  | zero => exact fun st => ⟨0, rfl⟩
  | succ k ih =>
    intro st
    by_cases h1 : st.t < until'
    · cases hc : (match timelimit with
        | some tl => decide (env st.t > tl)
        | none => false) with
      | true => exact ⟨0, by simp [runAux, h1, hc, stepN]⟩
      | false =>
        by_cases h3 : stopF st.people st.t
        · exact ⟨0, by simp [runAux, h1, hc, h3, stepN]⟩
        · obtain ⟨n, hn⟩ := ih (doStep stepF st)
          refine ⟨n + 1, ?_⟩
          show runAux stepF stopF timelimit env until' (k + 1) st
            = stepN stepF n (doStep stepF st)
          rw [← hn]
          simp [runAux, h1, hc, h3]
    · exact ⟨0, by simp [runAux, h1, stepN]⟩

/-- Claim C9: two runs of `Sim.run` with identical parameters (the step
function, stopping function, time limit, step horizon and seed) that
execute the same number of steps produce identical per-timestep flow-count
sequences — regardless of how many draws population creation consumed
(`d1`/`d2`, neutralized by the re-seed in `Sim.initialize`) and regardless
of the wall-clock environments (`env1`/`env2`, the only nondeterministic
input, which can only cut the run short at the time limit). -/
theorem run_flows_deterministic {P F : Type} (stepF : P → Nat → P × Nat × F)
    (stopF : P → Nat → Bool) (timelimit : Option ℚ) (env1 env2 : Nat → ℚ)
    (until' : Nat) (mkPeople : Nat → P) (seed d1 d2 : Nat)
    (hlen : (simRun stepF stopF timelimit env1 until' mkPeople seed d1).flows.length
      = (simRun stepF stopF timelimit env2 until' mkPeople seed d2).flows.length) :
    (simRun stepF stopF timelimit env1 until' mkPeople seed d1).flows
      = (simRun stepF stopF timelimit env2 until' mkPeople seed d2).flows := by
  obtain ⟨n1, h1⟩ := runAux_eq_stepN stepF stopF timelimit env1 until' until'
    (simInit mkPeople seed d1 : SimState P F)
  obtain ⟨n2, h2⟩ := runAux_eq_stepN stepF stopF timelimit env2 until' until'
    (simInit mkPeople seed d2 : SimState P F)
  have e1 : simRun stepF stopF timelimit env1 until' mkPeople seed d1
      = stepN stepF n1 (simInit mkPeople seed d1) := h1
  have e2 : simRun stepF stopF timelimit env2 until' mkPeople seed d2
      = stepN stepF n2 (simInit mkPeople seed d2) := h2
  rw [e1, e2] at hlen ⊢
  have l1 := stepN_flows_length stepF n1 (simInit mkPeople seed d1 : SimState P F)
  have l2 := stepN_flows_length stepF n2 (simInit mkPeople seed d2 : SimState P F)
  have hflows : ((simInit mkPeople seed d1 : SimState P F)).flows = [] := rfl
  have hflows2 : ((simInit mkPeople seed d2 : SimState P F)).flows = [] := rfl
  rw [l1, l2, hflows, hflows2] at hlen
  simp only [List.length_nil, Nat.zero_add] at hlen
  subst hlen
  rw [simInit_indep_of_draws mkPeople seed d1 d2]

/-- Witness for `run_flows_deterministic`: a concrete 3-step run with
different wall-clock environments and different population-draw counts. -/
theorem run_flows_deterministic_witness :
    (simRun (fun p r => (p + 1, r + 1, p + r)) (fun _ _ => false) none
        (fun _ => (0 : ℚ)) 3 (fun r => r) 7 5).flows
      = (simRun (fun p r => (p + 1, r + 1, p + r)) (fun _ _ => false) none
        (fun k => (k : ℚ)) 3 (fun r => r) 7 11).flows :=
  run_flows_deterministic (fun p r => (p + 1, r + 1, p + r)) (fun _ _ => false)
    none (fun _ => (0 : ℚ)) (fun k => (k : ℚ)) 3 (fun r => r) 7 5 11 rfl

end HPVSim
